import Mathlib

/-!
Formal model of the area-converter batch pipeline
(`scripts/batch_generate_children_from_csv.py`, `src/validation.py`,
`src/section_regen.py`, `src/mappers.py`).

Strings are modelled by Lean `String` with all character work done on the
underlying `List Char`, so that every definition reduces in the kernel.
Python `str.strip()` is modelled by `trimChars` (ASCII whitespace; the
labels and HTML handled by this program are ASCII apart from dashes),
`sep in s` by `hasSub` / `List.contains`, `s.split(sep)` for a one-character
separator by `splitOnChar`, and `str.lower()` by an ASCII `Char.toLower` map.
-/

namespace AreaConv

/-- Boolean test that `n` is a prefix of `h` (char lists). -/
def pfxAt : List Char → List Char → Bool
  | [], _ => true
  | _ :: _, [] => false
  | a :: n, b :: h => a == b && pfxAt n h

/-- Boolean substring test: Python `needle in hay`. -/
def hasSub (n : List Char) : List Char → Bool
  | [] => pfxAt n []
  | c :: h => pfxAt n (c :: h) || hasSub n h

/-- Python `str.strip()` on a char list (whitespace both ends). -/
def trimChars (cs : List Char) : List Char :=
  ((cs.dropWhile Char.isWhitespace).reverse.dropWhile Char.isWhitespace).reverse

/-- Python `s.split(sep)` for a single-character separator. -/
def splitOnChar (sep : Char) : List Char → List (List Char)
  | [] => [[]]
  | c :: rest =>
    if c == sep then [] :: splitOnChar sep rest
    else
      match splitOnChar sep rest with
      | [] => [[c]]
      | p :: ps => (c :: p) :: ps

/-- Separator preference used by `extract_region` in the source:
en dash (U+2013), em dash (U+2014), then ASCII hyphen. -/
def extractSeps : List Char := ['–', '—', '-']

/-- Last stripped non-empty part of splitting on `sep`, provided there are at
least two such parts; `none` otherwise.  This is the body of the inner
`if sep in name:` block of `extract_region` (lines 228–232). -/
def specLastPart (sep : Char) (name : List Char) : Option String :=
  let parts := ((splitOnChar sep name).map trimChars).filter (fun p => p ≠ [])
  if 2 ≤ parts.length then parts.getLast?.map (fun p => (⟨p⟩ : String)) else none

/-- Inner loop of `extract_region`: try each separator in order; when the
separator occurs in the name and splitting (with per-part strip and dropping
empty parts) yields at least two parts, return the last part, otherwise fall
through to the next separator. -/
def extractRegionGo : List Char → List Char → Option String
  | [], _ => none
  | sep :: seps, name =>
    if name.contains sep then
      match specLastPart sep name with
      | some r => some r
      | none => extractRegionGo seps name
    else extractRegionGo seps name

/-- Model of `extract_region` (batch script, lines 220–233). -/
def extract_region (label : String) : Option String :=
  extractRegionGo extractSeps (trimChars label.data)

/-- The amended C1 wording as a definition: strip the label, then try
en dash, em dash and hyphen in that preference order, returning the last
non-empty stripped part for the first separator whose splitting yields at
least two such parts, and `none` when no separator does. -/
def extractRegionSpec (label : String) : Option String :=
  extractSeps.findSome? fun sep => specLastPart sep (trimChars label.data)

theorem splitOnChar_of_not_contains (sep : Char) (name : List Char)
    (h : name.contains sep = false) : splitOnChar sep name = [name] := by
  induction name with
  | nil => rfl
  | cons c rest ih =>
    have h2 : (sep == c || rest.contains sep) = false := by
      simpa [List.contains_cons] using h
    have hcr : rest.contains sep = false := by
      cases hx : rest.contains sep
      · rfl
      · rw [hx] at h2
        simp at h2
    have hcc : (c == sep) = false := by
      cases hx : sep == c
      · rw [beq_eq_false_iff_ne] at hx ⊢
        exact fun he => hx he.symm
      · rw [hx] at h2
        simp at h2
    simp [splitOnChar, hcc, ih hcr]

theorem specLastPart_of_not_contains (sep : Char) (name : List Char)
    (h : name.contains sep = false) : specLastPart sep name = none := by
  have hs := splitOnChar_of_not_contains sep name h
  by_cases ht : trimChars name = []
  · simp [specLastPart, hs, List.filter_cons, ht]
  · simp [specLastPart, hs, List.filter_cons, ht]

theorem extractRegionGo_eq_findSome (seps : List Char) (name : List Char) :
    extractRegionGo seps name = seps.findSome? fun sep => specLastPart sep name := by
  induction seps with
  | nil => rfl
  | cons sep seps ih =>
    rw [List.findSome?_cons]
    cases hc : name.contains sep with
    | true =>
      simp only [extractRegionGo, hc, if_true]
      cases hs : specLastPart sep name with
      | some r => simp [hs]
      | none => simp [hs, ih]
    | false =>
      simp only [extractRegionGo, hc, Bool.false_eq_true, if_false]
      rw [specLastPart_of_not_contains sep name hc]
      exact ih

/-- C1 (amended): `extract_region` tries en dash (U+2013), em dash (U+2014)
and hyphen in that preference order — not em dash first — and returns the
last stripped non-empty part for the first separator whose splitting yields
at least two such parts, falling through to the next separator otherwise and
returning `none` when no separator yields two parts.  In particular
`extract_region "Bigha-Uttarakhand-II" = some "II"`, while
`extract_region "Pan-India" = some "India"` (not `none`): the hyphen in
"Pan-India" does split the label. -/
theorem c1_extract_region_corrected :
    (∀ label, extract_region label = extractRegionSpec label) ∧
    extract_region "Bigha-Uttarakhand-II" = some "II" ∧
    extract_region "Pan-India" = some "India" ∧
    extract_region "a–b—c" = some "b—c" ∧
    extract_region "a—b-c" = some "b-c" ∧
    extract_region "–x-y" = some "y" := by
  refine ⟨fun label => extractRegionGo_eq_findSome extractSeps (trimChars label.data),
    ?_, ?_, ?_, ?_, ?_⟩ <;> decide

/-- C1 counterexample: the claim says `extract_region "Pan-India"` is `none`
(it is `some "India"`), and that the em dash is preferred over the en dash
(on "a–b—c" the code splits on the en dash first, giving "b—c", whereas an
em-dash preference would give "c"). -/
theorem c1_extract_region_cex :
    ¬ extract_region "Pan-India" = none ∧
    ¬ extract_region "a–b—c" = some "c" := by
  decide

/-- ASCII lowercase of a char list: model of Python `str.lower()` for the
ASCII region keys and labels this program handles. -/
def lowerChars (cs : List Char) : List Char := cs.map Char.toLower

/-- Model of the `REGION_TO_CITY` dict (lines 40–55).  Python dicts preserve
insertion order, so the table is an ordered association list. -/
def REGION_TO_CITY : List (String × String) :=
  [("Assam", "Guwahati"),
   ("Bengal", "Kolkata"),
   ("Bihar", "Patna"),
   ("Jharkhand", "Ranchi"),
   ("Tripura", "Agartala"),
   ("Gujarat", "Ahmedabad"),
   ("Rajasthan", "Jaipur"),
   ("Punjab", "Chandigarh"),
   ("Haryana", "Gurugram"),
   ("HP", "Shimla"),
   ("Himachal", "Shimla"),
   ("Uttarakhand", "Dehradun"),
   ("UP", "Lucknow"),
   ("MP", "Bhopal")]

/-- Inner loop of `guess_city`: scan one label over the table in declared
order with a case-insensitive substring test, returning the first hit. -/
def findCityIn (label : String) : Option String :=
  REGION_TO_CITY.findSome? fun rc =>
    if hasSub (lowerChars rc.1.data) (lowerChars label.data) then some rc.2 else none

/-- Model of `guess_city` (lines 236–245): the from-label is scanned fully
before the to-label, and `default_city` is the fallback. -/
def guess_city (from_label to_label default_city : String) : String :=
  match findCityIn from_label with
  | some city => city
  | none =>
    match findCityIn to_label with
    | some city => city
    | none => default_city

/-- Model of the `SPECIAL_CODES` dict (lines 21–37). -/
def SPECIAL_CODES : List (String × String) :=
  [("Square Meter", "SQ_M"),
   ("Square Meter ", "SQ_M"),
   ("Square Meteres", "SQ_M"),
   ("Square Meters", "SQ_M"),
   ("Square Feet", "SQ_FT"),
   ("Square Foot", "SQ_FT"),
   (" Square Feet", "SQ_FT"),
   (" Square Foot", "SQ_FT"),
   ("Square Yard", "SQ_YD"),
   (" Square Yard", "SQ_YD"),
   ("Square Inch", "SQ_IN"),
   ("Square Kilometer", "SQ_KM"),
   ("Square Mile", "SQ_MI"),
   ("Acre", "ACRE"),
   ("Hectare", "HECTARE")]

/-- Character class of the regex `[0-9a-zA-Z]`. -/
def isAlnumCh (c : Char) : Bool :=
  ('0' ≤ c && c ≤ '9') || ('a' ≤ c && c ≤ 'z') || ('A' ≤ c && c ≤ 'Z')

/-- Model of `re.sub(r"[^0-9a-zA-Z]+", "_", s)`: every maximal run of
non-alphanumeric characters becomes a single underscore.  The flag records
whether we are inside such a run. -/
def collapseGo : Bool → List Char → List Char
  | _, [] => []
  | inRun, c :: rest =>
    if isAlnumCh c then c :: collapseGo false rest
    else if inRun then collapseGo true rest
    else '_' :: collapseGo true rest

def collapseNonAlnum (cs : List Char) : List Char := collapseGo false cs

/-- Python `s.strip("_")`. -/
def stripUnderscoreEnds (cs : List Char) : List Char :=
  ((cs.dropWhile (fun c => c == '_')).reverse.dropWhile (fun c => c == '_')).reverse

/-- Model of `normalize_unit_code` (lines 205–217). -/
def normalize_unit_code (label : String) : String :=
  let clean := trimChars label.data
  match List.lookup (⟨clean⟩ : String) SPECIAL_CODES with
  | some code => code
  | none => ⟨(stripUnderscoreEnds (collapseNonAlnum clean)).map Char.toUpper⟩

/-- Model of `build_slug` (lines 248–252): lowercase each code, turn
underscores into hyphens, join with "-to-". -/
def slugNorm (code : String) : List Char :=
  (code.data.map Char.toLower).map fun ch => if ch == '_' then '-' else ch

def build_slug (from_code to_code : String) : String :=
  ⟨slugNorm from_code ++ "-to-".data ++ slugNorm to_code⟩

/-- C7: `guess_city` scans the from-label and then the to-label
case-insensitively against the fixed region-to-city table; within a label the
first-declared region wins (witnessed by "Assam Bengal" resolving to Assam's
city), the from-label takes priority over the to-label, and the default city
is returned when no region token matches either label; in particular
`guess_city "Bigha - Assam" "Acre" d = "Guwahati"` for every default `d`. -/
theorem c7_guess_city :
    (∀ d, guess_city "Bigha - Assam" "Acre" d = "Guwahati") ∧
    (∀ f t d c, findCityIn f = some c → guess_city f t d = c) ∧
    (∀ f t d c, findCityIn f = none → findCityIn t = some c → guess_city f t d = c) ∧
    (∀ f t d, findCityIn f = none → findCityIn t = none → guess_city f t d = d) ∧
    findCityIn "Assam Bengal" = some "Guwahati" := by
  refine ⟨?_, ?_, ?_, ?_, by decide⟩
  · intro d
    have h : findCityIn "Bigha - Assam" = some "Guwahati" := by decide
    simp [guess_city, h]
  · intro f t d c h
    simp [guess_city, h]
  · intro f t d c h1 h2
    simp [guess_city, h1, h2]
  · intro f t d h1 h2
    simp [guess_city, h1, h2]

theorem c7_guess_city_witness :
    findCityIn "Foo" = none ∧ findCityIn "Bar" = none ∧
      guess_city "Foo" "Bar" "Mumbai" = "Mumbai" :=
  ⟨by decide, by decide, c7_guess_city.2.2.2.1 "Foo" "Bar" "Mumbai" (by decide) (by decide)⟩

/-- Scan for the closing `>` of a `<[^>]+>` match, any number of characters
after the first: returns the remaining input after the `>` when found. -/
def tagEndGo : List Char → Option (List Char)
  | [] => none
  | c :: rest => if c == '>' then some rest else tagEndGo rest

/-- Try to match `[^>]+>` at the start of the input (the part of a tag after
its `<`): the first character must not be `>` (the `+` requires at least one
non-`>` character), then everything up to the first `>` is consumed. -/
def tagEnd : List Char → Option (List Char)
  | [] => none
  | c :: rest => if c == '>' then none else tagEndGo rest

/-- Model of `re.sub(r"<[^>]+>", " ", s)`: replace each non-overlapping
leftmost match with a single space; a `<` that starts no match is kept.
Fuel is the input length; every step consumes at least one character. -/
def stripTagsGo : Nat → List Char → List Char
  | _, [] => []
  | 0, cs => cs
  | fuel + 1, c :: rest =>
    if c == '<' then
      match tagEnd rest with
      | some rest' => ' ' :: stripTagsGo fuel rest'
      | none => c :: stripTagsGo fuel rest
    else c :: stripTagsGo fuel rest

def stripTags (cs : List Char) : List Char := stripTagsGo cs.length cs

/-- Number of maximal non-whitespace runs.  After the source collapses
whitespace (`re.sub(r"\s+", " ", ...)`), strips, and splits on single
spaces, the token count is exactly this. -/
def countWordsGo : Bool → List Char → Nat
  | _, [] => 0
  | inWord, c :: rest =>
    if c.isWhitespace then countWordsGo false rest
    else (if inWord then 0 else 1) + countWordsGo true rest

def countWords (cs : List Char) : Nat := countWordsGo false cs

/-- Model of `html_word_count` (validation.py lines 8–18).  The argument is
an `Option String` so that Python `None` — which, like `""`, is falsy and
handled by the `if not html` guard — is representable. -/
def html_word_count : Option String → Nat
  | none => 0
  | some s => if s = "" then 0 else countWords (stripTags s.data)

/-- Decimal digit character: `digitChar 7 = '7'`. -/
def digitChar (n : Nat) : Char := Char.ofNat (48 + n)

/-- Fuel-driven decimal rendering; fuel `n` suffices since `n / 10 < n`. -/
def natDigitsGo : Nat → Nat → List Char → List Char
  | 0, n, acc => digitChar (n % 10) :: acc
  | fuel + 1, n, acc =>
    if n < 10 then digitChar n :: acc
    else natDigitsGo fuel (n / 10) (digitChar (n % 10) :: acc)

/-- Decimal digits of `n`, as Python `str` renders a non-negative int. -/
def natDigits (n : Nat) : List Char := natDigitsGo n n []

/-- Issue string for the why-convert section (f-string of line 31). -/
def whyMsg (wc : Nat) : String :=
  ⟨"why_convert_section_html: ".data ++ natDigits wc ++ " words (expected 220–260).".data⟩

/-- Issue string for the from-unit section (line 36). -/
def fromMsg (wc : Nat) : String :=
  ⟨"from_unit_section_html: ".data ++ natDigits wc ++ " words (expected 230–290).".data⟩

/-- Issue string for the to-unit section (line 41). -/
def toMsg (wc : Nat) : String :=
  ⟨"to_unit_section_html: ".data ++ natDigits wc ++ " words (expected 230–290).".data⟩

/-- Issue string for the examples section (line 46). -/
def exMsg (wc : Nat) : String :=
  ⟨"examples_section_html: ".data ++ natDigits wc ++ " words (expected 90–200).".data⟩

/-- Issue string for the technical section (line 51). -/
def techMsg (wc : Nat) : String :=
  ⟨"technical_details_html: ".data ++ natDigits wc ++ " words (expected 150–200).".data⟩

/-- Issue string for FAQ answer `idx` (lines 57–59). -/
def faqMsg (idx wc : Nat) : String :=
  ⟨"faqs[".data ++ natDigits idx ++ "].answer_html: ".data ++ natDigits wc
    ++ " words (expected 90–140).".data⟩

/-- One FAQ entry; `faq.get("answer_html", "")` with a missing key is the
empty string, so a plain field is faithful. -/
structure Faq where
  question : String
  answer_html : String
deriving DecidableEq

/-- Model of the `ChildPageOutput` pydantic model (src/models.py). -/
structure ChildPageOutput where
  seo_meta_title : String
  seo_meta_description : String
  h1_heading : String
  why_convert_section_html : String
  from_unit_section_html : String
  to_unit_section_html : String
  examples_section_html : String
  technical_details_html : String
  faqs : List Faq
deriving DecidableEq

/-- Python `lo <= n <= hi`. -/
def inR (lo hi n : Nat) : Bool := decide (lo ≤ n) && decide (n ≤ hi)

def whyIssue (c : ChildPageOutput) : List String :=
  let wc := html_word_count (some c.why_convert_section_html)
  if inR 220 260 wc then [] else [whyMsg wc]

def fromIssue (c : ChildPageOutput) : List String :=
  let wc := html_word_count (some c.from_unit_section_html)
  if inR 230 290 wc then [] else [fromMsg wc]

def toIssue (c : ChildPageOutput) : List String :=
  let wc := html_word_count (some c.to_unit_section_html)
  if inR 230 290 wc then [] else [toMsg wc]

def exIssue (c : ChildPageOutput) : List String :=
  let wc := html_word_count (some c.examples_section_html)
  if inR 90 200 wc then [] else [exMsg wc]

def techIssue (c : ChildPageOutput) : List String :=
  let wc := html_word_count (some c.technical_details_html)
  if inR 150 200 wc then [] else [techMsg wc]

/-- FAQ checks of lines 54–59, `enumerate` carried as the start index. -/
def faqIssuesGo : Nat → List Faq → List String
  | _, [] => []
  | idx, f :: rest =>
    let wc := html_word_count (some f.answer_html)
    (if inR 90 140 wc then [] else [faqMsg idx wc]) ++ faqIssuesGo (idx + 1) rest

/-- Model of `validate_child_lengths` (validation.py lines 21–61): the issue
list is the in-order concatenation of the per-section checks, FAQ answers
enumerated from 0. -/
def validate_child_lengths (c : ChildPageOutput) : List String :=
  whyIssue c ++ fromIssue c ++ toIssue c ++ exIssue c ++ techIssue c ++ faqIssuesGo 0 c.faqs

/-- Issue-string to section-name mapping (`section_names_from_issues`,
batch script lines 255–273): substring checks in source order. -/
def classify_issue (msg : String) : Option String :=
  if hasSub "why_convert_section_html".data msg.data then some "why_convert"
  else if hasSub "from_unit_section_html".data msg.data then some "from_unit"
  else if hasSub "to_unit_section_html".data msg.data then some "to_unit"
  else if hasSub "examples_section_html".data msg.data then some "examples"
  else if hasSub "technical_details_html".data msg.data then some "technical"
  else if hasSub "faqs[".data msg.data then some "faq_block"
  else none

/-- Model of `section_names_from_issues`.  CPython iterates the resulting
`set` in a hash-seed-dependent order; the model keeps first-insertion order.
The deduplication behaviour (claims C2–C4) does not depend on this choice. -/
def section_names_from_issues (issues : List String) : List String :=
  issues.foldl
    (fun acc msg =>
      match classify_issue msg with
      | some s => if acc.contains s then acc else acc ++ [s]
      | none => acc)
    []

/-- Propositional substring relation matching `hasSub`. -/
def SubL (n h : List Char) : Prop := ∃ p q, h = p ++ n ++ q

theorem pfxAt_iff (n : List Char) : ∀ h, pfxAt n h = true ↔ ∃ q, h = n ++ q := by
  induction n with
  | nil =>
    intro h
    simp [pfxAt]
  | cons a n ih =>
    intro h
    cases h with
    | nil =>
      simp only [pfxAt, List.cons_append, Bool.false_eq_true, false_iff]
      rintro ⟨q, hq⟩
      exact List.noConfusion hq
    | cons b h' =>
      simp only [pfxAt, Bool.and_eq_true, beq_iff_eq, ih, List.cons_append,
        List.cons.injEq]
      constructor
      · rintro ⟨rfl, q, rfl⟩
        exact ⟨q, rfl, rfl⟩
      · rintro ⟨q, rfl, rfl⟩
        exact ⟨rfl, q, rfl⟩

theorem hasSub_iff (n : List Char) : ∀ h, hasSub n h = true ↔ SubL n h := by
  intro h
  induction h with
  | nil =>
    rw [show hasSub n [] = pfxAt n [] from rfl, pfxAt_iff]
    constructor
    · rintro ⟨q, hq⟩
      exact ⟨[], q, by simpa using hq⟩
    · rintro ⟨p, q, hq⟩
      rcases List.append_eq_nil.mp (List.append_eq_nil.mp hq.symm).1 with ⟨h1, h2⟩
      exact ⟨q, by simp [h2, (List.append_eq_nil.mp hq.symm).2]⟩
  | cons c h' ih =>
    simp only [hasSub, Bool.or_eq_true, pfxAt_iff, ih]
    constructor
    · rintro (⟨q, hq⟩ | ⟨p, q, hq⟩)
      · exact ⟨[], q, by simpa using hq⟩
      · exact ⟨c :: p, q, by simp [hq]⟩
    · rintro ⟨p, q, hq⟩
      cases p with
      | nil => exact Or.inl ⟨q, by simpa using hq⟩
      | cons x p' =>
        right
        rcases List.cons.injEq .. ▸ hq with ⟨hx, ht⟩
        exact ⟨p', q, by simpa using ht⟩

theorem pfx_through_sep (d : List Char) (hd : d ≠ []) :
    ∀ n, (∀ c ∈ d, c ∉ n) → ∀ a b,
      ((∃ q, a ++ (d ++ b) = n ++ q) ↔ ∃ q, a = n ++ q) := by
  intro n
  induction n generalizing d with
  | nil =>
    intro _ a b
    exact ⟨fun _ => ⟨a, rfl⟩, fun _ => ⟨a ++ (d ++ b), rfl⟩⟩
  | cons y n' ih =>
    intro hdisj a b
    cases a with
    | nil =>
      simp only [List.nil_append]
      constructor
      · rintro ⟨q, hq⟩
        cases d with
        | nil => exact absurd rfl hd
        | cons e d' =>
          exfalso
          rcases List.cons.injEq .. ▸ hq with ⟨rfl, -⟩
          exact hdisj e (by simp) (by simp)
      · rintro ⟨q, hq⟩
        exact List.noConfusion hq
    | cons x a' =>
      have hdisj' : ∀ c ∈ d, c ∉ n' := by
        intro c hc hm
        exact hdisj c hc (List.mem_cons_of_mem y hm)
      constructor
      · rintro ⟨q, hq⟩
        rcases List.cons.injEq .. ▸ hq with ⟨rfl, ht⟩
        rcases (ih d hd hdisj' a' b).mp ⟨q, ht⟩ with ⟨q', hq'⟩
        exact ⟨q', by simp [hq']⟩
      · rintro ⟨q, hq⟩
        rcases List.cons.injEq .. ▸ hq with ⟨rfl, ht⟩
        rcases (ih d hd hdisj' a' b).mpr ⟨q, ht⟩ with ⟨q', hq'⟩
        exact ⟨q', by simp [hq']⟩

theorem subL_cons_iff (n : List Char) (x : Char) (t : List Char) :
    SubL n (x :: t) ↔ (∃ q, x :: t = n ++ q) ∨ SubL n t := by
  constructor
  · rintro ⟨p, q, hq⟩
    cases p with
    | nil => exact Or.inl ⟨q, by simpa using hq⟩
    | cons z p' =>
      right
      rcases List.cons.injEq .. ▸ hq with ⟨-, ht⟩
      exact ⟨p', q, by simpa using ht⟩
  · rintro (⟨q, hq⟩ | ⟨p, q, hq⟩)
    · exact ⟨[], q, by simpa using hq⟩
    · exact ⟨x :: p, q, by simp [hq]⟩

theorem subL_through_sep (n d : List Char) (hd : d ≠ [])
    (hdisj : ∀ c ∈ d, c ∉ n) :
    ∀ a b, SubL n (a ++ (d ++ b)) ↔ SubL n a ∨ SubL n b := by
  by_cases hn : n = []
  · subst hn
    intro a b
    have h1 : ∀ h : List Char, SubL [] h := fun h => ⟨[], h, rfl⟩
    simp [h1]
  · intro a b
    induction a with
    | nil =>
      simp only [List.nil_append]
      have hnil : ¬ SubL n [] := by
        rintro ⟨p, q, hq⟩
        exact hn (List.append_eq_nil.mp (List.append_eq_nil.mp hq.symm).1).2
      have hskip : ∀ dd, (∀ c ∈ dd, c ∉ n) → (SubL n (dd ++ b) ↔ SubL n b) := by
        intro dd
        induction dd with
        | nil => intro _; simp
        | cons e dd' ihd =>
          intro hdd
          rw [List.cons_append, subL_cons_iff]
          have hne : ¬ ∃ q, e :: (dd' ++ b) = n ++ q := by
            rintro ⟨q, hq⟩
            cases n with
            | nil => exact hn rfl
            | cons y n' =>
              rcases List.cons.injEq .. ▸ hq with ⟨rfl, -⟩
              exact hdd e (by simp) (by simp)
          rw [ihd (fun c hc => hdd c (List.mem_cons_of_mem e hc))]
          tauto
      rw [hskip d hdisj]
      tauto
    | cons x a' ih =>
      rw [List.cons_append, subL_cons_iff, subL_cons_iff, ih]
      rw [show x :: (a' ++ (d ++ b)) = (x :: a') ++ (d ++ b) from rfl]
      rw [pfx_through_sep d hd n hdisj (x :: a') b]
      tauto

/-- Decimal-digit character test. -/
def isDigCh (c : Char) : Bool := decide (48 ≤ c.toNat) && decide (c.toNat ≤ 57)

theorem digitChar_isDig (m : Nat) (hm : m < 10) : isDigCh (digitChar m) = true := by
  interval_cases m <;> decide

theorem natDigitsGo_digits (fuel : Nat) :
    ∀ n acc, (∀ c ∈ acc, isDigCh c = true) →
      ∀ c ∈ natDigitsGo fuel n acc, isDigCh c = true := by
  induction fuel with
  | zero =>
    intro n acc hacc c hc
    rcases List.mem_cons.mp hc with rfl | hc
    · exact digitChar_isDig _ (Nat.mod_lt n (by norm_num))
    · exact hacc c hc
  | succ fuel ih =>
    intro n acc hacc c hc
    rw [natDigitsGo] at hc
    by_cases h : n < 10
    · rw [if_pos h] at hc
      rcases List.mem_cons.mp hc with rfl | hc
      · exact digitChar_isDig _ h
      · exact hacc c hc
    · rw [if_neg h] at hc
      refine ih (n / 10) (digitChar (n % 10) :: acc) ?_ c hc
      intro c' hc'
      rcases List.mem_cons.mp hc' with rfl | hc'
      · exact digitChar_isDig _ (Nat.mod_lt n (by norm_num))
      · exact hacc c' hc'

theorem natDigits_digits (n : Nat) : ∀ c ∈ natDigits n, isDigCh c = true :=
  natDigitsGo_digits n n [] (by intro c hc; exact absurd hc (List.not_mem_nil c))

theorem natDigitsGo_ne_nil (fuel : Nat) : ∀ n acc, natDigitsGo fuel n acc ≠ [] := by
  induction fuel with
  | zero => intro n acc; exact List.cons_ne_nil _ _
  | succ fuel ih =>
    intro n acc
    rw [natDigitsGo]
    by_cases h : n < 10
    · rw [if_pos h]; exact List.cons_ne_nil _ _
    · rw [if_neg h]; exact ih _ _

theorem natDigits_ne_nil (n : Nat) : natDigits n ≠ [] := natDigitsGo_ne_nil n n []

theorem digits_disjoint (key : List Char) (hkey : ∀ c ∈ key, isDigCh c = false)
    (n : Nat) : ∀ c ∈ natDigits n, c ∉ key := by
  intro c hc hmem
  have h1 := natDigits_digits n c hc
  have h2 := hkey c hmem
  rw [h1] at h2
  exact Bool.noConfusion h2

/-- Substring refutation for a one-number message `a ++ digits ++ b`: a
digit-free needle occurring nowhere in `a` nor in `b` cannot occur at all,
because an occurrence cannot overlap the non-empty digit run. -/
theorem hasSub_num_msg_false (needle a b : List Char) (wc : Nat)
    (hdig : ∀ c ∈ needle, isDigCh c = false)
    (ha : hasSub needle a = false) (hb : hasSub needle b = false) :
    hasSub needle (a ++ (natDigits wc ++ b)) = false := by
  have hiff := subL_through_sep needle (natDigits wc) (natDigits_ne_nil wc)
    (digits_disjoint needle hdig wc) a b
  cases hx : hasSub needle (a ++ (natDigits wc ++ b)) with
  | false => rfl
  | true =>
    exfalso
    rcases hiff.mp ((hasSub_iff _ _).mp hx) with h | h
    · rw [(hasSub_iff _ _).mpr h] at ha
      exact Bool.noConfusion ha
    · rw [(hasSub_iff _ _).mpr h] at hb
      exact Bool.noConfusion hb

theorem hasSub_msg1 (needle key tail : List Char) (wc : Nat)
    (hdig : ∀ c ∈ needle, isDigCh c = false)
    (ha : hasSub needle key = false) (hb : hasSub needle tail = false) :
    hasSub needle ((key ++ natDigits wc) ++ tail) = false := by
  rw [List.append_assoc]
  exact hasSub_num_msg_false needle key tail wc hdig ha hb

theorem hasSub_msg2 (needle k1 k2 tail : List Char) (idx wc : Nat)
    (hdig : ∀ c ∈ needle, isDigCh c = false)
    (h1 : hasSub needle k1 = false) (h2 : hasSub needle k2 = false)
    (h3 : hasSub needle tail = false) :
    hasSub needle ((((k1 ++ natDigits idx) ++ k2) ++ natDigits wc) ++ tail) = false := by
  have hinner : hasSub needle (k2 ++ (natDigits wc ++ tail)) = false :=
    hasSub_num_msg_false needle k2 tail wc hdig h2 h3
  have houter : hasSub needle (k1 ++ (natDigits idx ++ (k2 ++ (natDigits wc ++ tail)))) = false :=
    hasSub_num_msg_false needle k1 _ idx hdig h1 hinner
  simpa [List.append_assoc] using houter

theorem classify_whyMsg (wc : Nat) : classify_issue (whyMsg wc) = some "why_convert" := by
  have h : hasSub "why_convert_section_html".data (whyMsg wc).data = true := by
    refine (hasSub_iff _ _).mpr
      ⟨[], ": ".data ++ (natDigits wc ++ " words (expected 220–260).".data), ?_⟩
    show ("why_convert_section_html: ".data ++ natDigits wc)
        ++ " words (expected 220–260).".data = _
    rw [show "why_convert_section_html: ".data
        = "why_convert_section_html".data ++ ": ".data from by decide]
    simp [List.append_assoc]
  simp [classify_issue, h]

theorem classify_fromMsg (wc : Nat) : classify_issue (fromMsg wc) = some "from_unit" := by
  have hwhy : hasSub "why_convert_section_html".data (fromMsg wc).data = false :=
    hasSub_msg1 _ "from_unit_section_html: ".data " words (expected 230–290).".data wc
      (by decide) (by decide) (by decide)
  have h : hasSub "from_unit_section_html".data (fromMsg wc).data = true := by
    refine (hasSub_iff _ _).mpr
      ⟨[], ": ".data ++ (natDigits wc ++ " words (expected 230–290).".data), ?_⟩
    show ("from_unit_section_html: ".data ++ natDigits wc)
        ++ " words (expected 230–290).".data = _
    rw [show "from_unit_section_html: ".data
        = "from_unit_section_html".data ++ ": ".data from by decide]
    simp [List.append_assoc]
  simp [classify_issue, hwhy, h]

theorem classify_toMsg (wc : Nat) : classify_issue (toMsg wc) = some "to_unit" := by
  have hwhy : hasSub "why_convert_section_html".data (toMsg wc).data = false :=
    hasSub_msg1 _ "to_unit_section_html: ".data " words (expected 230–290).".data wc
      (by decide) (by decide) (by decide)
  have hfrom : hasSub "from_unit_section_html".data (toMsg wc).data = false :=
    hasSub_msg1 _ "to_unit_section_html: ".data " words (expected 230–290).".data wc
      (by decide) (by decide) (by decide)
  have h : hasSub "to_unit_section_html".data (toMsg wc).data = true := by
    refine (hasSub_iff _ _).mpr
      ⟨[], ": ".data ++ (natDigits wc ++ " words (expected 230–290).".data), ?_⟩
    show ("to_unit_section_html: ".data ++ natDigits wc)
        ++ " words (expected 230–290).".data = _
    rw [show "to_unit_section_html: ".data
        = "to_unit_section_html".data ++ ": ".data from by decide]
    simp [List.append_assoc]
  simp [classify_issue, hwhy, hfrom, h]

theorem classify_exMsg (wc : Nat) : classify_issue (exMsg wc) = some "examples" := by
  have hwhy : hasSub "why_convert_section_html".data (exMsg wc).data = false :=
    hasSub_msg1 _ "examples_section_html: ".data " words (expected 90–200).".data wc
      (by decide) (by decide) (by decide)
  have hfrom : hasSub "from_unit_section_html".data (exMsg wc).data = false :=
    hasSub_msg1 _ "examples_section_html: ".data " words (expected 90–200).".data wc
      (by decide) (by decide) (by decide)
  have hto : hasSub "to_unit_section_html".data (exMsg wc).data = false :=
    hasSub_msg1 _ "examples_section_html: ".data " words (expected 90–200).".data wc
      (by decide) (by decide) (by decide)
  have h : hasSub "examples_section_html".data (exMsg wc).data = true := by
    refine (hasSub_iff _ _).mpr
      ⟨[], ": ".data ++ (natDigits wc ++ " words (expected 90–200).".data), ?_⟩
    show ("examples_section_html: ".data ++ natDigits wc)
        ++ " words (expected 90–200).".data = _
    rw [show "examples_section_html: ".data
        = "examples_section_html".data ++ ": ".data from by decide]
    simp [List.append_assoc]
  simp [classify_issue, hwhy, hfrom, hto, h]

theorem classify_techMsg (wc : Nat) : classify_issue (techMsg wc) = some "technical" := by
  have hwhy : hasSub "why_convert_section_html".data (techMsg wc).data = false :=
    hasSub_msg1 _ "technical_details_html: ".data " words (expected 150–200).".data wc
      (by decide) (by decide) (by decide)
  have hfrom : hasSub "from_unit_section_html".data (techMsg wc).data = false :=
    hasSub_msg1 _ "technical_details_html: ".data " words (expected 150–200).".data wc
      (by decide) (by decide) (by decide)
  have hto : hasSub "to_unit_section_html".data (techMsg wc).data = false :=
    hasSub_msg1 _ "technical_details_html: ".data " words (expected 150–200).".data wc
      (by decide) (by decide) (by decide)
  have hex : hasSub "examples_section_html".data (techMsg wc).data = false :=
    hasSub_msg1 _ "technical_details_html: ".data " words (expected 150–200).".data wc
      (by decide) (by decide) (by decide)
  have h : hasSub "technical_details_html".data (techMsg wc).data = true := by
    refine (hasSub_iff _ _).mpr
      ⟨[], ": ".data ++ (natDigits wc ++ " words (expected 150–200).".data), ?_⟩
    show ("technical_details_html: ".data ++ natDigits wc)
        ++ " words (expected 150–200).".data = _
    rw [show "technical_details_html: ".data
        = "technical_details_html".data ++ ": ".data from by decide]
    simp [List.append_assoc]
  simp [classify_issue, hwhy, hfrom, hto, hex, h]

theorem classify_faqMsg (idx wc : Nat) :
    classify_issue (faqMsg idx wc) = some "faq_block" := by
  have hwhy : hasSub "why_convert_section_html".data (faqMsg idx wc).data = false :=
    hasSub_msg2 _ "faqs[".data "].answer_html: ".data " words (expected 90–140).".data
      idx wc (by decide) (by decide) (by decide) (by decide)
  have hfrom : hasSub "from_unit_section_html".data (faqMsg idx wc).data = false :=
    hasSub_msg2 _ "faqs[".data "].answer_html: ".data " words (expected 90–140).".data
      idx wc (by decide) (by decide) (by decide) (by decide)
  have hto : hasSub "to_unit_section_html".data (faqMsg idx wc).data = false :=
    hasSub_msg2 _ "faqs[".data "].answer_html: ".data " words (expected 90–140).".data
      idx wc (by decide) (by decide) (by decide) (by decide)
  have hex : hasSub "examples_section_html".data (faqMsg idx wc).data = false :=
    hasSub_msg2 _ "faqs[".data "].answer_html: ".data " words (expected 90–140).".data
      idx wc (by decide) (by decide) (by decide) (by decide)
  have htech : hasSub "technical_details_html".data (faqMsg idx wc).data = false :=
    hasSub_msg2 _ "faqs[".data "].answer_html: ".data " words (expected 90–140).".data
      idx wc (by decide) (by decide) (by decide) (by decide)
  have h : hasSub "faqs[".data (faqMsg idx wc).data = true := by
    refine (hasSub_iff _ _).mpr
      ⟨[], natDigits idx ++ ("].answer_html: ".data
        ++ (natDigits wc ++ " words (expected 90–140).".data)), ?_⟩
    show ((("faqs[".data ++ natDigits idx) ++ "].answer_html: ".data)
        ++ natDigits wc) ++ " words (expected 90–140).".data = _
    simp [List.append_assoc]
  simp [classify_issue, hwhy, hfrom, hto, hex, htech, h]

/-- The six regenerable section kinds (`SectionName` in src/section_regen.py). -/
inductive SecKind
  | why
  | fromU
  | toU
  | exa
  | tech
  | faq
deriving DecidableEq

def allKinds : List SecKind := [.why, .fromU, .toU, .exa, .tech, .faq]

def secName : SecKind → String
  | .why => "why_convert"
  | .fromU => "from_unit"
  | .toU => "to_unit"
  | .exa => "examples"
  | .tech => "technical"
  | .faq => "faq_block"

/-- One FAQ answer is within its 90–140 word range. -/
def faqOkB (f : Faq) : Bool := inR 90 140 (html_word_count (some f.answer_html))

/-- The section of kind `k` passes its validator check. -/
def okSecB : SecKind → ChildPageOutput → Bool
  | .why, c => inR 220 260 (html_word_count (some c.why_convert_section_html))
  | .fromU, c => inR 230 290 (html_word_count (some c.from_unit_section_html))
  | .toU, c => inR 230 290 (html_word_count (some c.to_unit_section_html))
  | .exa, c => inR 90 200 (html_word_count (some c.examples_section_html))
  | .tech, c => inR 150 200 (html_word_count (some c.technical_details_html))
  | .faq, c => c.faqs.all faqOkB

def allOkB (c : ChildPageOutput) : Bool := allKinds.all fun k => okSecB k c

/-- Section `k` is out of range.  For the FAQ block this means exactly one
answer out of range: each bad answer yields its own issue line, so a single
remaining issue corresponds to a single bad answer. -/
def secBadB : SecKind → ChildPageOutput → Bool
  | .faq, c => c.faqs.countP (fun f => !(faqOkB f)) == 1
  | k, c => !(okSecB k c)

/-- Exactly the section of kind `k` is out of range; all others pass. -/
def badOnlyB (k : SecKind) (c : ChildPageOutput) : Bool :=
  allKinds.all fun j => if j = k then secBadB k c else okSecB j c

abbrev BadOnly (k : SecKind) (c : ChildPageOutput) : Prop := badOnlyB k c = true

theorem badOnly_destruct (k : SecKind) (c : ChildPageOutput) (h : BadOnly k c) :
    secBadB k c = true ∧ ∀ j, j ≠ k → okSecB j c = true := by
  unfold BadOnly badOnlyB at h
  rw [List.all_eq_true] at h
  constructor
  · have hk := h k (by cases k <;> simp [allKinds])
    simpa using hk
  · intro j hj
    have hjj := h j (by cases j <;> simp [allKinds])
    rwa [if_neg hj] at hjj

theorem faqIssuesGo_all_ok : ∀ (l : List Faq) (start : Nat),
    l.all faqOkB = true → faqIssuesGo start l = [] := by
  intro l
  induction l with
  | nil => intro start _; rfl
  | cons f rest ih =>
    intro start hall
    rw [List.all_cons, Bool.and_eq_true] at hall
    have hf : inR 90 140 (html_word_count (some f.answer_html)) = true := hall.1
    simp [faqIssuesGo, hf, ih (start + 1) hall.2]

theorem faqIssuesGo_nil_iff : ∀ (l : List Faq) (start : Nat),
    faqIssuesGo start l = [] ↔ l.all faqOkB = true := by
  intro l
  induction l with
  | nil => intro start; simp [faqIssuesGo]
  | cons f rest ih =>
    intro start
    cases hf : faqOkB f with
    | true =>
      have hf' : inR 90 140 (html_word_count (some f.answer_html)) = true := hf
      simp [faqIssuesGo, hf', List.all_cons, hf, ih (start + 1)]
    | false =>
      have hf' : inR 90 140 (html_word_count (some f.answer_html)) = false := hf
      simp [faqIssuesGo, hf', List.all_cons, hf]

theorem faqIssuesGo_one_bad : ∀ (l : List Faq) (start : Nat),
    l.countP (fun f => !(faqOkB f)) = 1 →
    ∃ idx wc, faqIssuesGo start l = [faqMsg idx wc] := by
  intro l
  induction l with
  | nil => intro start h; simp [List.countP_nil] at h
  | cons f rest ih =>
    intro start h
    cases hf : faqOkB f with
    | true =>
      have hf' : inR 90 140 (html_word_count (some f.answer_html)) = true := hf
      simp only [List.countP_cons, hf, Bool.not_true] at h
      have hrest : rest.countP (fun f => !(faqOkB f)) = 1 := by
        simpa using h
      rcases ih (start + 1) hrest with ⟨idx, wc, heq⟩
      exact ⟨idx, wc, by simp [faqIssuesGo, hf', heq]⟩
    | false =>
      have hf' : inR 90 140 (html_word_count (some f.answer_html)) = false := hf
      simp [List.countP_cons, hf] at h
      have hall : rest.all faqOkB = true := by
        rw [List.all_eq_true]
        intro f' hf'mem
        exact h f' hf'mem
      refine ⟨start, html_word_count (some f.answer_html), ?_⟩
      simp [faqIssuesGo, hf', faqIssuesGo_all_ok rest (start + 1) hall]

theorem whyIssue_nil_iff (c : ChildPageOutput) :
    whyIssue c = [] ↔ okSecB .why c = true := by
  cases hx : inR 220 260 (html_word_count (some c.why_convert_section_html)) <;>
    simp [whyIssue, okSecB, hx]

theorem fromIssue_nil_iff (c : ChildPageOutput) :
    fromIssue c = [] ↔ okSecB .fromU c = true := by
  cases hx : inR 230 290 (html_word_count (some c.from_unit_section_html)) <;>
    simp [fromIssue, okSecB, hx]

theorem toIssue_nil_iff (c : ChildPageOutput) :
    toIssue c = [] ↔ okSecB .toU c = true := by
  cases hx : inR 230 290 (html_word_count (some c.to_unit_section_html)) <;>
    simp [toIssue, okSecB, hx]

theorem exIssue_nil_iff (c : ChildPageOutput) :
    exIssue c = [] ↔ okSecB .exa c = true := by
  cases hx : inR 90 200 (html_word_count (some c.examples_section_html)) <;>
    simp [exIssue, okSecB, hx]

theorem techIssue_nil_iff (c : ChildPageOutput) :
    techIssue c = [] ↔ okSecB .tech c = true := by
  cases hx : inR 150 200 (html_word_count (some c.technical_details_html)) <;>
    simp [techIssue, okSecB, hx]

theorem validate_nil_iff (c : ChildPageOutput) :
    validate_child_lengths c = [] ↔ allOkB c = true := by
  rw [validate_child_lengths]
  simp only [List.append_eq_nil, whyIssue_nil_iff, fromIssue_nil_iff, toIssue_nil_iff,
    exIssue_nil_iff, techIssue_nil_iff, faqIssuesGo_nil_iff]
  rw [allOkB, allKinds]
  simp only [List.all_cons, List.all_nil, Bool.and_eq_true, Bool.and_true]
  show _ ↔ _ ∧ _ ∧ _ ∧ _ ∧ _ ∧ okSecB .faq c = true
  rw [show okSecB .faq c = c.faqs.all faqOkB from rfl]
  tauto

theorem validate_of_badOnly (k : SecKind) (c : ChildPageOutput) (h : BadOnly k c) :
    ∃ m, validate_child_lengths c = [m] ∧ classify_issue m = some (secName k) := by
  obtain ⟨hbad, hok⟩ := badOnly_destruct k c h
  cases k with
  | why =>
    have hw : inR 220 260 (html_word_count (some c.why_convert_section_html)) = false := by
      simpa [secBadB, okSecB] using hbad
    have hf : inR 230 290 (html_word_count (some c.from_unit_section_html)) = true := by
      simpa [okSecB] using hok .fromU (by decide)
    have ht : inR 230 290 (html_word_count (some c.to_unit_section_html)) = true := by
      simpa [okSecB] using hok .toU (by decide)
    have he : inR 90 200 (html_word_count (some c.examples_section_html)) = true := by
      simpa [okSecB] using hok .exa (by decide)
    have hc : inR 150 200 (html_word_count (some c.technical_details_html)) = true := by
      simpa [okSecB] using hok .tech (by decide)
    have hq : c.faqs.all faqOkB = true := by
      simpa [okSecB] using hok .faq (by decide)
    refine ⟨whyMsg (html_word_count (some c.why_convert_section_html)), ?_, classify_whyMsg _⟩
    simp [validate_child_lengths, whyIssue, fromIssue, toIssue, exIssue, techIssue,
      hw, hf, ht, he, hc, faqIssuesGo_all_ok c.faqs 0 hq]
  | fromU =>
    have hw : inR 220 260 (html_word_count (some c.why_convert_section_html)) = true := by
      simpa [okSecB] using hok .why (by decide)
    have hf : inR 230 290 (html_word_count (some c.from_unit_section_html)) = false := by
      simpa [secBadB, okSecB] using hbad
    have ht : inR 230 290 (html_word_count (some c.to_unit_section_html)) = true := by
      simpa [okSecB] using hok .toU (by decide)
    have he : inR 90 200 (html_word_count (some c.examples_section_html)) = true := by
      simpa [okSecB] using hok .exa (by decide)
    have hc : inR 150 200 (html_word_count (some c.technical_details_html)) = true := by
      simpa [okSecB] using hok .tech (by decide)
    have hq : c.faqs.all faqOkB = true := by
      simpa [okSecB] using hok .faq (by decide)
    refine ⟨fromMsg (html_word_count (some c.from_unit_section_html)), ?_, classify_fromMsg _⟩
    simp [validate_child_lengths, whyIssue, fromIssue, toIssue, exIssue, techIssue,
      hw, hf, ht, he, hc, faqIssuesGo_all_ok c.faqs 0 hq]
  | toU =>
    have hw : inR 220 260 (html_word_count (some c.why_convert_section_html)) = true := by
      simpa [okSecB] using hok .why (by decide)
    have hf : inR 230 290 (html_word_count (some c.from_unit_section_html)) = true := by
      simpa [okSecB] using hok .fromU (by decide)
    have ht : inR 230 290 (html_word_count (some c.to_unit_section_html)) = false := by
      simpa [secBadB, okSecB] using hbad
    have he : inR 90 200 (html_word_count (some c.examples_section_html)) = true := by
      simpa [okSecB] using hok .exa (by decide)
    have hc : inR 150 200 (html_word_count (some c.technical_details_html)) = true := by
      simpa [okSecB] using hok .tech (by decide)
    have hq : c.faqs.all faqOkB = true := by
      simpa [okSecB] using hok .faq (by decide)
    refine ⟨toMsg (html_word_count (some c.to_unit_section_html)), ?_, classify_toMsg _⟩
    simp [validate_child_lengths, whyIssue, fromIssue, toIssue, exIssue, techIssue,
      hw, hf, ht, he, hc, faqIssuesGo_all_ok c.faqs 0 hq]
  | exa =>
    have hw : inR 220 260 (html_word_count (some c.why_convert_section_html)) = true := by
      simpa [okSecB] using hok .why (by decide)
    have hf : inR 230 290 (html_word_count (some c.from_unit_section_html)) = true := by
      simpa [okSecB] using hok .fromU (by decide)
    have ht : inR 230 290 (html_word_count (some c.to_unit_section_html)) = true := by
      simpa [okSecB] using hok .toU (by decide)
    have he : inR 90 200 (html_word_count (some c.examples_section_html)) = false := by
      simpa [secBadB, okSecB] using hbad
    have hc : inR 150 200 (html_word_count (some c.technical_details_html)) = true := by
      simpa [okSecB] using hok .tech (by decide)
    have hq : c.faqs.all faqOkB = true := by
      simpa [okSecB] using hok .faq (by decide)
    refine ⟨exMsg (html_word_count (some c.examples_section_html)), ?_, classify_exMsg _⟩
    simp [validate_child_lengths, whyIssue, fromIssue, toIssue, exIssue, techIssue,
      hw, hf, ht, he, hc, faqIssuesGo_all_ok c.faqs 0 hq]
  | tech =>
    have hw : inR 220 260 (html_word_count (some c.why_convert_section_html)) = true := by
      simpa [okSecB] using hok .why (by decide)
    have hf : inR 230 290 (html_word_count (some c.from_unit_section_html)) = true := by
      simpa [okSecB] using hok .fromU (by decide)
    have ht : inR 230 290 (html_word_count (some c.to_unit_section_html)) = true := by
      simpa [okSecB] using hok .toU (by decide)
    have he : inR 90 200 (html_word_count (some c.examples_section_html)) = true := by
      simpa [okSecB] using hok .exa (by decide)
    have hc : inR 150 200 (html_word_count (some c.technical_details_html)) = false := by
      simpa [secBadB, okSecB] using hbad
    have hq : c.faqs.all faqOkB = true := by
      simpa [okSecB] using hok .faq (by decide)
    refine ⟨techMsg (html_word_count (some c.technical_details_html)), ?_, classify_techMsg _⟩
    simp [validate_child_lengths, whyIssue, fromIssue, toIssue, exIssue, techIssue,
      hw, hf, ht, he, hc, faqIssuesGo_all_ok c.faqs 0 hq]
  | faq =>
    have hw : inR 220 260 (html_word_count (some c.why_convert_section_html)) = true := by
      simpa [okSecB] using hok .why (by decide)
    have hf : inR 230 290 (html_word_count (some c.from_unit_section_html)) = true := by
      simpa [okSecB] using hok .fromU (by decide)
    have ht : inR 230 290 (html_word_count (some c.to_unit_section_html)) = true := by
      simpa [okSecB] using hok .toU (by decide)
    have he : inR 90 200 (html_word_count (some c.examples_section_html)) = true := by
      simpa [okSecB] using hok .exa (by decide)
    have hc : inR 150 200 (html_word_count (some c.technical_details_html)) = true := by
      simpa [okSecB] using hok .tech (by decide)
    have hcount : c.faqs.countP (fun f => !(faqOkB f)) = 1 := by
      have := hbad
      simp only [secBadB, beq_iff_eq] at this
      exact this
    rcases faqIssuesGo_one_bad c.faqs 0 hcount with ⟨idx, wc, heq⟩
    refine ⟨faqMsg idx wc, ?_, classify_faqMsg idx wc⟩
    simp [validate_child_lengths, whyIssue, fromIssue, toIssue, exIssue, techIssue,
      hw, hf, ht, he, hc, heq]

/-- C5: the validator returns the empty list exactly when every section is
within its hardcoded range (why-convert 220–260, from/to-unit 230–290,
examples 90–200, technical 150–200, each FAQ answer 90–140); and on content
where exactly one section is out of range — the state reached by moving any
single in-range section of a valid content out of its range — the validator
reports exactly one issue, and that issue names the failing section. -/
theorem c5_validate_ranges :
    (∀ c, validate_child_lengths c = [] ↔ allOkB c = true) ∧
    (∀ c k, BadOnly k c →
      ∃ m, validate_child_lengths c = [m] ∧ classify_issue m = some (secName k)) :=
  ⟨validate_nil_iff, fun c k h => validate_of_badOnly k c h⟩

/-- C9: empty (or `None`) HTML counts as zero words, and the validator is
total on all-empty content, reporting each section at 0 words. -/
theorem c9_empty_html_zero_words :
    (∀ h : Option String, h = none ∨ h = some "" → html_word_count h = 0) ∧
    validate_child_lengths
        ⟨"t", "d", "h1", "", "", "", "", "", [⟨"q", ""⟩]⟩
      = [whyMsg 0, fromMsg 0, toMsg 0, exMsg 0, techMsg 0, faqMsg 0 0] := by
  constructor
  · rintro h (rfl | rfl) <;> decide
  · decide

theorem c9_empty_html_zero_words_witness :
    ((none : Option String) = none ∨ (none : Option String) = some "") ∧
      html_word_count none = 0 :=
  ⟨Or.inl rfl, c9_empty_html_zero_words.1 none (Or.inl rfl)⟩

/-- Plain text of `n` space-separated one-letter words, for concrete
in-range section bodies. -/
def wordsChars : Nat → List Char
  | 0 => []
  | 1 => ['w']
  | n + 2 => 'w' :: ' ' :: wordsChars (n + 1)

def mkWords (n : Nat) : String := ⟨wordsChars n⟩

/-- A concrete content in which every section is within range. -/
def allValidChild : ChildPageOutput :=
  ⟨"t", "d", "h1", mkWords 240, mkWords 260, mkWords 261, mkWords 150, mkWords 175,
    [⟨"q", mkWords 100⟩]⟩

/-- `allValidChild` with the why-convert section moved out of range. -/
def badWhyChild : ChildPageOutput :=
  { allValidChild with why_convert_section_html := "" }

set_option maxRecDepth 8000 in
theorem c5_validate_ranges_witness :
    BadOnly .why badWhyChild ∧
      ∃ m, validate_child_lengths badWhyChild = [m] ∧
        classify_issue m = some (secName .why) :=
  ⟨by decide, c5_validate_ranges.2 badWhyChild .why (by decide)⟩

/-- Payload of one `regenerate_section` call.  The source returns a JSON
dict carrying the single expected key; the model carries a field per
possible key, and the splice below reads exactly the key the source reads
(a malformed payload — a `KeyError` in the source — is outside the model). -/
structure RegenOut where
  why_convert_section_html : String
  from_unit_section_html : String
  to_unit_section_html : String
  examples_section_html : String
  technical_details_html : String
  faqs : List Faq
deriving DecidableEq

/-- Splice one regenerated section into the content (batch script lines
352–373); an unknown name touches nothing. -/
def spliceSection (c : ChildPageOutput) (s : String) (r : RegenOut) : ChildPageOutput :=
  if s = "why_convert" then { c with why_convert_section_html := r.why_convert_section_html }
  else if s = "from_unit" then { c with from_unit_section_html := r.from_unit_section_html }
  else if s = "to_unit" then { c with to_unit_section_html := r.to_unit_section_html }
  else if s = "examples" then { c with examples_section_html := r.examples_section_html }
  else if s = "technical" then { c with technical_details_html := r.technical_details_html }
  else if s = "faq_block" then { c with faqs := r.faqs }
  else c

/-- One repair pass over the deduplicated failing-section list (lines
338–373).  `regen` is the external regenerator oracle, indexed by the number
of calls made so far; `log` records the regenerated sections in call order. -/
def runPass (regen : Nat → String → RegenOut) :
    ChildPageOutput → List String → List String → ChildPageOutput × List String
  | c, log, [] => (c, log)
  | c, log, s :: rest =>
    runPass regen (spliceSection c s (regen log.length s)) (log ++ [s]) rest

/-- The bounded repair loop (`for _ in range(max_fix_passes)`, lines
334–376): stop when the fuel runs out or the issue list is empty; otherwise
regenerate each failing section once, splice, and re-validate. -/
def loopAux (regen : Nat → String → RegenOut) :
    Nat → ChildPageOutput → List String → List String →
      ChildPageOutput × List String × List String
  | 0, c, issues, log => (c, issues, log)
  | n + 1, c, issues, log =>
    if issues = [] then (c, issues, log)
    else
      let sections := section_names_from_issues issues
      let c' := (runPass regen c log sections).1
      let log' := (runPass regen c log sections).2
      loopAux regen n c' (validate_child_lengths c') log'

/-- Validation plus optional auto-fix portion of `process_pair` (lines
330–376): first validation, then the loop only when issues exist and
auto-fix is enabled.  Returns final content, final issues and the
regeneration call log. -/
def repair_loop (regen : Nat → String → RegenOut) (auto_fix_lengths : Bool)
    (max_fix_passes : Nat) (c : ChildPageOutput) :
    ChildPageOutput × List String × List String :=
  let issues := validate_child_lengths c
  if issues ≠ [] ∧ auto_fix_lengths then loopAux regen max_fix_passes c issues []
  else (c, issues, [])

theorem runPass_log (regen : Nat → String → RegenOut) :
    ∀ sections c log, (runPass regen c log sections).2 = log ++ sections := by
  intro sections
  induction sections with
  | nil => intro c log; simp [runPass]
  | cons s rest ih =>
    intro c log
    rw [runPass, ih]
    simp

theorem section_names_foldl_nodup (issues : List String) :
    ∀ acc : List String, acc.Nodup →
      (issues.foldl
        (fun acc msg =>
          match classify_issue msg with
          | some s => if acc.contains s then acc else acc ++ [s]
          | none => acc)
        acc).Nodup := by
  induction issues with
  | nil => intro acc hacc; exact hacc
  | cons msg rest ih =>
    intro acc hacc
    rw [List.foldl_cons]
    apply ih
    cases hcl : classify_issue msg with
    | none => simpa [hcl] using hacc
    | some s =>
      simp only [hcl]
      cases hc : acc.contains s with
      | true => simpa using hacc
      | false =>
        have hnm : s ∉ acc := by
          intro hmem
          have hcm : acc.contains s = true := by simpa using hmem
          rw [hcm] at hc
          exact Bool.noConfusion hc
        rw [if_neg (by simp [hc])]
        rw [List.nodup_append]
        exact ⟨hacc, List.nodup_singleton s, by
          intro a ha hs
          rcases List.mem_singleton.mp hs with rfl
          exact hnm ha⟩

/-- C4: within one repair pass each distinct failing section is regenerated
exactly once: the section list derived from any issue list is
duplicate-free, every failing-FAQ-answer issue maps to the single name
"faq_block", and the pass's call log is exactly that deduplicated list. -/
theorem c4_sections_deduplicated :
    (∀ issues, (section_names_from_issues issues).Nodup) ∧
    (∀ idx wc, classify_issue (faqMsg idx wc) = some "faq_block") ∧
    (∀ regen c log sections,
      (runPass regen c log sections).2 = log ++ sections) :=
  ⟨fun issues => section_names_foldl_nodup issues [] List.nodup_nil,
   classify_faqMsg,
   fun regen c log sections => runPass_log regen sections c log⟩

/-- The regenerated payload for section `k` is itself out of range (for the
FAQ block: exactly one answer of the returned list is out of range). -/
def regenPayloadBad : SecKind → RegenOut → Bool
  | .why, r => !(inR 220 260 (html_word_count (some r.why_convert_section_html)))
  | .fromU, r => !(inR 230 290 (html_word_count (some r.from_unit_section_html)))
  | .toU, r => !(inR 230 290 (html_word_count (some r.to_unit_section_html)))
  | .exa, r => !(inR 90 200 (html_word_count (some r.examples_section_html)))
  | .tech, r => !(inR 150 200 (html_word_count (some r.technical_details_html)))
  | .faq, r => r.faqs.countP (fun f => !(faqOkB f)) == 1

/-- Every response the regenerator ever gives for section `k` leaves that
section out of range. -/
def RegenKeepsBad (k : SecKind) (regen : Nat → String → RegenOut) : Prop :=
  ∀ i, regenPayloadBad k (regen i (secName k)) = true

theorem splice_keeps_badOnly (k : SecKind) (c : ChildPageOutput) (r : RegenOut)
    (hc : BadOnly k c) (hr : regenPayloadBad k r = true) :
    BadOnly k (spliceSection c (secName k) r) := by
  obtain ⟨-, hok⟩ := badOnly_destruct k c hc
  cases k with
  | why =>
    have hbadr : inR 220 260 (html_word_count (some r.why_convert_section_html)) = false := by
      simpa [regenPayloadBad] using hr
    have hf : inR 230 290 (html_word_count (some c.from_unit_section_html)) = true := by
      simpa [okSecB] using hok .fromU (by decide)
    have ht : inR 230 290 (html_word_count (some c.to_unit_section_html)) = true := by
      simpa [okSecB] using hok .toU (by decide)
    have he : inR 90 200 (html_word_count (some c.examples_section_html)) = true := by
      simpa [okSecB] using hok .exa (by decide)
    have hc2 : inR 150 200 (html_word_count (some c.technical_details_html)) = true := by
      simpa [okSecB] using hok .tech (by decide)
    have hq : c.faqs.all faqOkB = true := by
      simpa [okSecB] using hok .faq (by decide)
    have hsplice : spliceSection c (secName .why) r
        = { c with why_convert_section_html := r.why_convert_section_html } := rfl
    rw [BadOnly, hsplice]
    simp [badOnlyB, allKinds, secBadB, okSecB, hbadr, hf, ht, he, hc2, hq]
  | fromU =>
    have hbadr : inR 230 290 (html_word_count (some r.from_unit_section_html)) = false := by
      simpa [regenPayloadBad] using hr
    have hw : inR 220 260 (html_word_count (some c.why_convert_section_html)) = true := by
      simpa [okSecB] using hok .why (by decide)
    have ht : inR 230 290 (html_word_count (some c.to_unit_section_html)) = true := by
      simpa [okSecB] using hok .toU (by decide)
    have he : inR 90 200 (html_word_count (some c.examples_section_html)) = true := by
      simpa [okSecB] using hok .exa (by decide)
    have hc2 : inR 150 200 (html_word_count (some c.technical_details_html)) = true := by
      simpa [okSecB] using hok .tech (by decide)
    have hq : c.faqs.all faqOkB = true := by
      simpa [okSecB] using hok .faq (by decide)
    have hsplice : spliceSection c (secName .fromU) r
        = { c with from_unit_section_html := r.from_unit_section_html } := rfl
    rw [BadOnly, hsplice]
    simp [badOnlyB, allKinds, secBadB, okSecB, hbadr, hw, ht, he, hc2, hq]
  | toU =>
    have hbadr : inR 230 290 (html_word_count (some r.to_unit_section_html)) = false := by
      simpa [regenPayloadBad] using hr
    have hw : inR 220 260 (html_word_count (some c.why_convert_section_html)) = true := by
      simpa [okSecB] using hok .why (by decide)
    have hf : inR 230 290 (html_word_count (some c.from_unit_section_html)) = true := by
      simpa [okSecB] using hok .fromU (by decide)
    have he : inR 90 200 (html_word_count (some c.examples_section_html)) = true := by
      simpa [okSecB] using hok .exa (by decide)
    have hc2 : inR 150 200 (html_word_count (some c.technical_details_html)) = true := by
      simpa [okSecB] using hok .tech (by decide)
    have hq : c.faqs.all faqOkB = true := by
      simpa [okSecB] using hok .faq (by decide)
    have hsplice : spliceSection c (secName .toU) r
        = { c with to_unit_section_html := r.to_unit_section_html } := rfl
    rw [BadOnly, hsplice]
    simp [badOnlyB, allKinds, secBadB, okSecB, hbadr, hw, hf, he, hc2, hq]
  | exa =>
    have hbadr : inR 90 200 (html_word_count (some r.examples_section_html)) = false := by
      simpa [regenPayloadBad] using hr
    have hw : inR 220 260 (html_word_count (some c.why_convert_section_html)) = true := by
      simpa [okSecB] using hok .why (by decide)
    have hf : inR 230 290 (html_word_count (some c.from_unit_section_html)) = true := by
      simpa [okSecB] using hok .fromU (by decide)
    have ht : inR 230 290 (html_word_count (some c.to_unit_section_html)) = true := by
      simpa [okSecB] using hok .toU (by decide)
    have hc2 : inR 150 200 (html_word_count (some c.technical_details_html)) = true := by
      simpa [okSecB] using hok .tech (by decide)
    have hq : c.faqs.all faqOkB = true := by
      simpa [okSecB] using hok .faq (by decide)
    have hsplice : spliceSection c (secName .exa) r
        = { c with examples_section_html := r.examples_section_html } := rfl
    rw [BadOnly, hsplice]
    simp [badOnlyB, allKinds, secBadB, okSecB, hbadr, hw, hf, ht, hc2, hq]
  | tech =>
    have hbadr : inR 150 200 (html_word_count (some r.technical_details_html)) = false := by
      simpa [regenPayloadBad] using hr
    have hw : inR 220 260 (html_word_count (some c.why_convert_section_html)) = true := by
      simpa [okSecB] using hok .why (by decide)
    have hf : inR 230 290 (html_word_count (some c.from_unit_section_html)) = true := by
      simpa [okSecB] using hok .fromU (by decide)
    have ht : inR 230 290 (html_word_count (some c.to_unit_section_html)) = true := by
      simpa [okSecB] using hok .toU (by decide)
    have he : inR 90 200 (html_word_count (some c.examples_section_html)) = true := by
      simpa [okSecB] using hok .exa (by decide)
    have hq : c.faqs.all faqOkB = true := by
      simpa [okSecB] using hok .faq (by decide)
    have hsplice : spliceSection c (secName .tech) r
        = { c with technical_details_html := r.technical_details_html } := rfl
    rw [BadOnly, hsplice]
    simp [badOnlyB, allKinds, secBadB, okSecB, hbadr, hw, hf, ht, he, hq]
  | faq =>
    have hbadr : r.faqs.countP (fun f => !(faqOkB f)) == 1 := by
      simpa [regenPayloadBad] using hr
    have hw : inR 220 260 (html_word_count (some c.why_convert_section_html)) = true := by
      simpa [okSecB] using hok .why (by decide)
    have hf : inR 230 290 (html_word_count (some c.from_unit_section_html)) = true := by
      simpa [okSecB] using hok .fromU (by decide)
    have ht : inR 230 290 (html_word_count (some c.to_unit_section_html)) = true := by
      simpa [okSecB] using hok .toU (by decide)
    have he : inR 90 200 (html_word_count (some c.examples_section_html)) = true := by
      simpa [okSecB] using hok .exa (by decide)
    have hc2 : inR 150 200 (html_word_count (some c.technical_details_html)) = true := by
      simpa [okSecB] using hok .tech (by decide)
    have hsplice : spliceSection c (secName .faq) r = { c with faqs := r.faqs } := rfl
    rw [BadOnly, hsplice]
    simp [badOnlyB, allKinds, secBadB, okSecB, hbadr, hw, hf, ht, he, hc2]

theorem loopAux_succ (regen : Nat → String → RegenOut) (n : Nat)
    (c : ChildPageOutput) (issues log : List String) (hne : issues ≠ []) :
    loopAux regen (n + 1) c issues log
      = loopAux regen n ((runPass regen c log (section_names_from_issues issues)).1)
          (validate_child_lengths
            ((runPass regen c log (section_names_from_issues issues)).1))
          ((runPass regen c log (section_names_from_issues issues)).2) := by
  rw [loopAux, if_neg hne]

theorem loopAux_persistent (k : SecKind) (regen : Nat → String → RegenOut)
    (hreg : RegenKeepsBad k regen) :
    ∀ (n : Nat) (c : ChildPageOutput) (log : List String), BadOnly k c →
      ∃ c', loopAux regen n c (validate_child_lengths c) log
          = (c', validate_child_lengths c', log ++ List.replicate n (secName k))
        ∧ BadOnly k c' := by
  intro n
  induction n with
  | zero =>
    intro c log hc
    exact ⟨c, by simp [loopAux], hc⟩
  | succ n ih =>
    intro c log hc
    rcases validate_of_badOnly k c hc with ⟨m, hval, hclass⟩
    have hne : validate_child_lengths c ≠ [] := by
      rw [hval]
      exact List.cons_ne_nil m []
    have hsections : section_names_from_issues (validate_child_lengths c) = [secName k] := by
      rw [hval]
      simp [section_names_from_issues, hclass]
    have hc1 : BadOnly k (spliceSection c (secName k) (regen log.length (secName k))) :=
      splice_keeps_badOnly k c _ hc (hreg log.length)
    rcases ih (spliceSection c (secName k) (regen log.length (secName k)))
        (log ++ [secName k]) hc1 with ⟨c', heq, hbad⟩
    refine ⟨c', ?_, hbad⟩
    rw [loopAux_succ regen n c _ log hne, hsections]
    rw [show (runPass regen c log [secName k]).1
        = spliceSection c (secName k) (regen log.length (secName k)) from rfl]
    rw [show (runPass regen c log [secName k]).2 = log ++ [secName k] from rfl]
    rw [heq]
    simp [List.append_assoc, List.replicate_succ]

/-- C3: when exactly one section is out of range and every regenerator
response for that section stays out of range, the repair loop with auto-fix
on terminates with exactly one remaining issue — an issue naming that very
section — and its call log is exactly `max_fix_passes` calls, all for that
section, so the regenerator is never called more than `max_fix_passes`
times for it (and never at all for any other section). -/
theorem c3_repair_loop_persistent (k : SecKind) (regen : Nat → String → RegenOut)
    (maxp : Nat) (c : ChildPageOutput)
    (hc : BadOnly k c) (hreg : RegenKeepsBad k regen) :
    ∃ c' m, repair_loop regen true maxp c
        = (c', [m], List.replicate maxp (secName k))
      ∧ classify_issue m = some (secName k) := by
  rcases validate_of_badOnly k c hc with ⟨m0, hval, -⟩
  have hne : validate_child_lengths c ≠ [] := by
    rw [hval]
    exact List.cons_ne_nil m0 []
  rcases loopAux_persistent k regen hreg maxp c [] hc with ⟨c', heq, hbad⟩
  rcases validate_of_badOnly k c' hbad with ⟨m, hval', hclass'⟩
  refine ⟨c', m, ?_, hclass'⟩
  rw [repair_loop]
  rw [if_pos ⟨hne, rfl⟩]
  rw [heq, hval']
  simp

def badRegenPayload : RegenOut := ⟨"", "", "", "", "", []⟩

def badRegenConst : Nat → String → RegenOut := fun _ _ => badRegenPayload

set_option maxRecDepth 8000 in
theorem c3_repair_loop_persistent_witness :
    BadOnly .why badWhyChild ∧
      regenPayloadBad .why badRegenPayload = true ∧
      ∃ c' m, repair_loop badRegenConst true 2 badWhyChild
          = (c', [m], List.replicate 2 (secName .why))
        ∧ classify_issue m = some (secName .why) :=
  ⟨by decide, by decide,
    c3_repair_loop_persistent .why badRegenConst 2 badWhyChild (by decide)
      (fun _ => (by decide : regenPayloadBad .why badRegenPayload = true))⟩

/-- One persistence side effect of `process_pair`. -/
inductive PairAction
  | wroteHtmlPreview (slug : String)
  | printedDoc
  | upserted (parentSlug slug locale siteCode : String)
deriving DecidableEq

/-- FAQ entries reshaped for storage: question, answer HTML, and 1-indexed
sort order assigned by list position (mappers.py lines 138–145). -/
def faqDocsGo : Nat → List Faq → List (String × String × Nat)
  | _, [] => []
  | i, f :: rest => (f.question, f.answer_html, i + 1) :: faqDocsGo (i + 1) rest

/-- Model of `build_child_mongo_doc` (src/mappers.py lines 76–160),
restricted to its pure fields: `createdAt`/`updatedAt`/
`lastUpdatedDisplayDate` come from `datetime.utcnow()`, ambient I/O outside
the embedding, and constant-valued display fields not referenced by any
claim are represented by the three page-settings flags. -/
structure ChildDoc where
  parentSlug : String
  slug : String
  urlPath : String
  fromUnitCode : String
  toUnitCode : String
  locale : String
  siteCode : String
  status : String
  version : Nat
  seoMetaTitle : String
  seoMetaDescription : String
  h1Heading : String
  canonicalUrl : String
  whyHeading : String
  whyHtml : String
  fromHeading : String
  fromHtml : String
  toHeading : String
  toHtml : String
  faqs : List (String × String × Nat)
  examplesHtml : String
  technicalHtml : String
  noIndex : Bool
  includeInSitemap : Bool
  enableSchemaMarkup : Bool
deriving DecidableEq

def build_child_mongo_doc (ai : ChildPageOutput)
    (parent_slug slug url_path from_unit_code to_unit_code
      from_label to_label locale site_code : String) : ChildDoc :=
  { parentSlug := parent_slug
    slug := slug
    urlPath := url_path
    fromUnitCode := from_unit_code
    toUnitCode := to_unit_code
    locale := locale
    siteCode := site_code
    status := "draft"
    version := 1
    seoMetaTitle := ai.seo_meta_title
    seoMetaDescription := ai.seo_meta_description
    h1Heading := ai.h1_heading
    canonicalUrl := "https://www.squareyards.com" ++ url_path
    whyHeading := "Why convert " ++ from_label ++ " to " ++ to_label ++ "?"
    whyHtml := ai.why_convert_section_html
    fromHeading := "What is " ++ from_label ++ "?"
    fromHtml := ai.from_unit_section_html
    toHeading := "What is " ++ to_label ++ "?"
    toHtml := ai.to_unit_section_html
    faqs := faqDocsGo 0 ai.faqs
    examplesHtml := ai.examples_section_html
    technicalHtml := ai.technical_details_html
    noIndex := false
    includeInSitemap := true
    enableSchemaMarkup := true }

structure PairResult where
  success : Bool
  issues : List String
  content : ChildPageOutput
  regenLog : List String
  doc : ChildDoc
  actions : List PairAction
deriving DecidableEq

/-- Model of `process_pair` (batch script lines 278–431).  The external
generator call of line 328 is the oracle value `ai0` (its payload —
regions, city, direction note — only feeds that call and is not modelled);
the Mongo handle, HTML file writing and JSON printing are abstracted into
the returned action list, in source order. -/
def process_pair (regen : Nat → String → RegenOut) (ai0 : ChildPageOutput)
    (row_label col_label locale site_code : String)
    (auto_fix_lengths : Bool) (max_fix_passes : Nat)
    (preview_only : Bool) (has_html_out_dir : Bool) : PairResult :=
  let from_label : String := ⟨trimChars row_label.data⟩
  let to_label : String := ⟨trimChars col_label.data⟩
  let from_code := normalize_unit_code from_label
  let to_code := normalize_unit_code to_label
  let res := repair_loop regen auto_fix_lengths max_fix_passes ai0
  let slug := build_slug from_code to_code
  let url_path := "/area-convertor/" ++ slug
  let doc := build_child_mongo_doc res.1 "area-convertor" slug url_path
    from_code to_code from_label to_label locale site_code
  { success := res.2.1.isEmpty
    issues := res.2.1
    content := res.1
    regenLog := res.2.2
    doc := doc
    actions :=
      (if has_html_out_dir then [PairAction.wroteHtmlPreview slug] else []) ++
      (if preview_only then [PairAction.printedDoc]
       else [PairAction.upserted doc.parentSlug doc.slug doc.locale doc.siteCode]) }

/-- C2: on content the validator accepts, the repair loop performs zero
regenerator calls (empty call log) and returns the content unchanged, for
any regenerator, any pass budget and either auto-fix setting; in
particular `process_pair` with auto-fix enabled makes no regenerator call,
keeps the generated content unchanged, and reports success. -/
theorem c2_repair_loop_idempotent (regen : Nat → String → RegenOut)
    (auto_fix : Bool) (maxp : Nat) (row col loc site : String) (pv hdir : Bool)
    (c : ChildPageOutput) (h : validate_child_lengths c = []) :
    repair_loop regen auto_fix maxp c = (c, [], []) ∧
    (process_pair regen c row col loc site true maxp pv hdir).regenLog = [] ∧
    (process_pair regen c row col loc site true maxp pv hdir).content = c ∧
    (process_pair regen c row col loc site true maxp pv hdir).success = true := by
  have hbase : ∀ af, repair_loop regen af maxp c = (c, [], []) := by
    intro af
    unfold repair_loop
    rw [h]
    simp
  refine ⟨hbase auto_fix, ?_, ?_, ?_⟩
  · show (repair_loop regen true maxp c).2.2 = []
    rw [hbase true]
  · show (repair_loop regen true maxp c).1 = c
    rw [hbase true]
  · show (repair_loop regen true maxp c).2.1.isEmpty = true
    rw [hbase true]
    rfl

def trivRegen : Nat → String → RegenOut := fun _ _ => ⟨"", "", "", "", "", []⟩

set_option maxRecDepth 8000 in
theorem c2_repair_loop_idempotent_witness :
    validate_child_lengths allValidChild = [] ∧
      (repair_loop trivRegen true 2 allValidChild = (allValidChild, [], []) ∧
       (process_pair trivRegen allValidChild "A" "B" "en-IN" "sqy-india-web"
          true 2 false false).regenLog = [] ∧
       (process_pair trivRegen allValidChild "A" "B" "en-IN" "sqy-india-web"
          true 2 false false).content = allValidChild ∧
       (process_pair trivRegen allValidChild "A" "B" "en-IN" "sqy-india-web"
          true 2 false false).success = true) :=
  ⟨by decide, c2_repair_loop_idempotent trivRegen true 2 "A" "B" "en-IN"
    "sqy-india-web" false false allValidChild (by decide)⟩

/-- Skip conditions of main's inner loop (lines 540–552): blank/NaN factor
(`none`), zero factor, or self-pair after stripping.  Factors are modelled
as rationals; only presence and zeroness are inspected. -/
def cellSkipped (row_label col_label : String) (factor : Option ℚ) : Bool :=
  match factor with
  | none => true
  | some q => q == 0 || (⟨trimChars row_label.data⟩ : String) == ⟨trimChars col_label.data⟩

/-- Counters of `main` (lines 532–534) plus the number of `process_pair`
invocations made, which indexes the outcome oracle. -/
structure DriverCounts where
  processed : Nat
  successes : Nat
  failures : Nat
  calls : Nat
deriving DecidableEq

/-- One cell of the inner loop (lines 537–584): skip, or count the pair and
break when past the limit (`processed` incremented before the check, line
554), or invoke `process_pair` (outcome oracle) and tally.  The Bool marks
the inner `break`. -/
def runCell (limit : Nat) (outcome : Nat → Bool) (st : DriverCounts)
    (row_label col_label : String) (factor : Option ℚ) : DriverCounts × Bool :=
  if cellSkipped row_label col_label factor then (st, false)
  else
    if limit ≠ 0 ∧ st.processed + 1 > limit then
      ({ st with processed := st.processed + 1 }, true)
    else
      ({ processed := st.processed + 1
         successes := if outcome st.calls then st.successes + 1 else st.successes
         failures := if outcome st.calls then st.failures else st.failures + 1
         calls := st.calls + 1 }, false)

def runRow (limit : Nat) (outcome : Nat → Bool) (row_label : String) :
    DriverCounts → List (String × Option ℚ) → DriverCounts
  | st, [] => st
  | st, (col, f) :: rest =>
    let rc := runCell limit outcome st row_label col f
    if rc.2 then rc.1 else runRow limit outcome row_label rc.1 rest

/-- The outer loop over rows with its own limit break (lines 536, 586–587). -/
def runMatrix (limit : Nat) (outcome : Nat → Bool) :
    DriverCounts → List (String × List (String × Option ℚ)) → DriverCounts
  | st, [] => st
  | st, (row_label, cells) :: rest =>
    let st' := runRow limit outcome row_label st cells
    if limit ≠ 0 ∧ st'.processed ≥ limit then st'
    else runMatrix limit outcome st' rest

/-- Model of the batch loop of `main` (lines 532–592). -/
def run_main (limit : Nat) (outcome : Nat → Bool)
    (matrix : List (String × List (String × Option ℚ))) : DriverCounts :=
  runMatrix limit outcome ⟨0, 0, 0, 0⟩ matrix

def eligCell (row_label : String) (cf : String × Option ℚ) : Bool :=
  !(cellSkipped row_label cf.1 cf.2)

def eligCountRow (r : String × List (String × Option ℚ)) : Nat :=
  (r.2.filter (eligCell r.1)).length

/-- Number of eligible (non-skipped) pairs in the matrix. -/
def eligTotal (matrix : List (String × List (String × Option ℚ))) : Nat :=
  (matrix.map eligCountRow).sum

/-- Successes among the first `k` oracle outcomes. -/
def cntT (outcome : Nat → Bool) (k : Nat) : Nat :=
  ((List.range k).filter fun i => outcome i).length

/-- Failures among the first `k` oracle outcomes. -/
def cntF (outcome : Nat → Bool) (k : Nat) : Nat :=
  ((List.range k).filter fun i => !(outcome i)).length

theorem cntT_succ (outcome : Nat → Bool) (k : Nat) :
    cntT outcome (k + 1) = cntT outcome k + (if outcome k then 1 else 0) := by
  rw [cntT, cntT, List.range_succ, List.filter_append]
  cases h : outcome k <;> simp [h]

theorem cntF_succ (outcome : Nat → Bool) (k : Nat) :
    cntF outcome (k + 1) = cntF outcome k + (if outcome k then 0 else 1) := by
  rw [cntF, cntF, List.range_succ, List.filter_append]
  cases h : outcome k <;> simp [h]

theorem cntT_add_cntF (outcome : Nat → Bool) :
    ∀ k, cntT outcome k + cntF outcome k = k := by
  intro k
  induction k with
  | zero => rfl
  | succ k ih =>
    rw [cntT_succ, cntF_succ]
    cases h : outcome k <;> simp <;> omega

/-- Tally invariant of the driver state. -/
def DriverInv (outcome : Nat → Bool) (st : DriverCounts) : Prop :=
  st.processed = st.calls ∧ st.successes = cntT outcome st.calls ∧
    st.failures = cntF outcome st.calls

theorem runRow_nolimit (outcome : Nat → Bool) (row_label : String) :
    ∀ (cells : List (String × Option ℚ)) (st : DriverCounts),
      DriverInv outcome st → DriverInv outcome (runRow 0 outcome row_label st cells) := by
  intro cells
  induction cells with
  | nil => intro st h; exact h
  | cons cf rest ih =>
    intro st h
    obtain ⟨h1, h2, h3⟩ := h
    rcases cf with ⟨col, f⟩
    rw [runRow]
    cases hs : cellSkipped row_label col f with
    | true =>
      have : runCell 0 outcome st row_label col f = (st, false) := by
        rw [runCell, if_pos hs]
      rw [this]
      exact ih st ⟨h1, h2, h3⟩
    | false =>
      have : runCell 0 outcome st row_label col f
          = ({ processed := st.processed + 1
               successes := if outcome st.calls then st.successes + 1 else st.successes
               failures := if outcome st.calls then st.failures else st.failures + 1
               calls := st.calls + 1 }, false) := by
        rw [runCell, if_neg (by rw [hs]; exact Bool.false_ne_true),
          if_neg (by intro hcontra; exact hcontra.1 rfl)]
      rw [this]
      refine ih _ ⟨by simp [h1], ?_, ?_⟩
      · cases ho : outcome st.calls <;>
          simp [cntT_succ, h2, ho]
      · cases ho : outcome st.calls <;>
          simp [cntF_succ, h3, ho]

theorem runMatrix_nolimit (outcome : Nat → Bool) :
    ∀ (matrix : List (String × List (String × Option ℚ))) (st : DriverCounts),
      DriverInv outcome st → DriverInv outcome (runMatrix 0 outcome st matrix) := by
  intro matrix
  induction matrix with
  | nil => intro st h; exact h
  | cons row rest ih =>
    intro st h
    rcases row with ⟨row_label, cells⟩
    rw [runMatrix]
    rw [if_neg (by intro hcontra; exact hcontra.1 rfl)]
    exact ih _ (runRow_nolimit outcome row_label cells st h)

/-- C8: exhausting the repair budget with issues left is non-fatal.
`process_pair` still builds the document from the final content as-is,
still performs exactly one persistence action (a JSON print in preview
mode, otherwise an upsert keyed on parent slug, slug, locale and site
code, after an optional HTML preview write), and returns success `false`
together with the issue list (success holds exactly when no issue
remains); the batch driver's aggregate counters then satisfy
successes + failures = number of `process_pair` calls, failures counting
exactly the pairs whose outcome was a failure. -/
theorem c8_shortfall_nonfatal :
    (∀ regen ai0 row col loc site af maxp pv hdir r,
      r = process_pair regen ai0 row col loc site af maxp pv hdir →
      ((r.success = true ↔ r.issues = []) ∧
       r.issues = (repair_loop regen af maxp ai0).2.1 ∧
       r.doc = build_child_mongo_doc r.content "area-convertor" r.doc.slug
         ("/area-convertor/" ++ r.doc.slug)
         (normalize_unit_code (⟨trimChars row.data⟩ : String))
         (normalize_unit_code (⟨trimChars col.data⟩ : String))
         (⟨trimChars row.data⟩ : String) (⟨trimChars col.data⟩ : String) loc site ∧
       (pv = true →
         r.actions = (if hdir then [PairAction.wroteHtmlPreview r.doc.slug] else [])
           ++ [PairAction.printedDoc]) ∧
       (pv = false →
         r.actions = (if hdir then [PairAction.wroteHtmlPreview r.doc.slug] else [])
           ++ [PairAction.upserted "area-convertor" r.doc.slug loc site]))) ∧
    (∀ outcome matrix,
      (run_main 0 outcome matrix).successes + (run_main 0 outcome matrix).failures
          = (run_main 0 outcome matrix).calls ∧
      (run_main 0 outcome matrix).failures
          = cntF outcome ((run_main 0 outcome matrix).calls)) := by
  constructor
  · intro regen ai0 row col loc site af maxp pv hdir r hr
    subst hr
    refine ⟨by simp [process_pair, List.isEmpty_iff], rfl, rfl, ?_, ?_⟩
    · intro hpv
      subst hpv
      rfl
    · intro hpv
      subst hpv
      rfl
  · intro outcome matrix
    have h := runMatrix_nolimit outcome matrix ⟨0, 0, 0, 0⟩ ⟨rfl, rfl, rfl⟩
    obtain ⟨-, h2, h3⟩ := h
    constructor
    · show (runMatrix 0 outcome ⟨0, 0, 0, 0⟩ matrix).successes
          + (runMatrix 0 outcome ⟨0, 0, 0, 0⟩ matrix).failures
          = (runMatrix 0 outcome ⟨0, 0, 0, 0⟩ matrix).calls
      rw [h2, h3, cntT_add_cntF]
    · exact h3

set_option maxRecDepth 8000 in
theorem c8_shortfall_nonfatal_witness :
    (process_pair trivRegen badWhyChild "A" "B" "en-IN" "sqy-india-web"
        false 2 false false).issues ≠ [] ∧
    (process_pair trivRegen badWhyChild "A" "B" "en-IN" "sqy-india-web"
        false 2 false false).success = false ∧
    (process_pair trivRegen badWhyChild "A" "B" "en-IN" "sqy-india-web"
        false 2 false false).actions
      = [PairAction.upserted "area-convertor"
          (process_pair trivRegen badWhyChild "A" "B" "en-IN" "sqy-india-web"
            false 2 false false).doc.slug "en-IN" "sqy-india-web"] := by
  have h := (c8_shortfall_nonfatal.1 trivRegen badWhyChild "A" "B" "en-IN"
    "sqy-india-web" false 2 false false _ rfl)
  refine ⟨by decide, ?_, ?_⟩
  · have hiss : (process_pair trivRegen badWhyChild "A" "B" "en-IN" "sqy-india-web"
        false 2 false false).issues ≠ [] := by decide
    cases hsucc : (process_pair trivRegen badWhyChild "A" "B" "en-IN" "sqy-india-web"
        false 2 false false).success
    · rfl
    · exact absurd (h.1.mp hsucc) hiss
  · have ha := h.2.2.2.2 rfl
    simpa using ha

/-- Expected stopping point of the limited run, from the per-row
eligible-pair counts: pairs are taken until the cumulative count reaches
the limit; the pair `(calls, processed)` ends as `(limit, limit + 1)` when
the limit is crossed strictly inside a row (the counter is bumped once more
before the break of line 555), and as `(limit, limit)` when a row ends
exactly at the limit (the outer break of line 586 fires first). -/
def stopSpec (limit : Nat) : Nat → List Nat → Nat × Nat
  | acc, [] => (acc, acc)
  | acc, e :: rest =>
    if acc + e < limit then stopSpec limit (acc + e) rest
    else if acc + e = limit then (limit, limit)
    else (limit, limit + 1)

theorem runRow_limit_spec (limit : Nat) (outcome : Nat → Bool) (row_label : String)
    (hl : limit ≠ 0) :
    ∀ (cells : List (String × Option ℚ)) (st : DriverCounts),
      DriverInv outcome st → st.processed ≤ limit →
      ((st.processed + (cells.filter (eligCell row_label)).length ≤ limit →
         DriverInv outcome (runRow limit outcome row_label st cells) ∧
         (runRow limit outcome row_label st cells).processed
           = st.processed + (cells.filter (eligCell row_label)).length) ∧
       (limit < st.processed + (cells.filter (eligCell row_label)).length →
         (runRow limit outcome row_label st cells).processed = limit + 1 ∧
         (runRow limit outcome row_label st cells).calls = limit ∧
         (runRow limit outcome row_label st cells).successes = cntT outcome limit ∧
         (runRow limit outcome row_label st cells).failures = cntF outcome limit)) := by
  intro cells
  induction cells with
  | nil =>
    intro st hinv hle
    constructor
    · intro _
      exact ⟨hinv, by simp [runRow]⟩
    · intro hgt
      exfalso
      simp only [List.filter_nil, List.length_nil, Nat.add_zero] at hgt
      omega
  | cons cf rest ih =>
    intro st hinv hle
    obtain ⟨h1, h2, h3⟩ := hinv
    rcases cf with ⟨col, f⟩
    cases hs : cellSkipped row_label col f with
    | true =>
      have hcell : runCell limit outcome st row_label col f = (st, false) := by
        rw [runCell, if_pos hs]
      have hfil : ((col, f) :: rest).filter (eligCell row_label)
          = rest.filter (eligCell row_label) := by
        simp [List.filter_cons, eligCell, hs]
      rw [runRow]
      simp only [hcell, hfil]
      exact ih st ⟨h1, h2, h3⟩ hle
    | false =>
      have helig : eligCell row_label (col, f) = true := by simp [eligCell, hs]
      have hfil : ((col, f) :: rest).filter (eligCell row_label)
          = (col, f) :: rest.filter (eligCell row_label) := by
        simp [List.filter_cons, helig]
      by_cases hover : st.processed + 1 > limit
      · have hpl : st.processed = limit := by omega
        have hcl : st.calls = limit := by omega
        have hcell : runCell limit outcome st row_label col f
            = ({ st with processed := st.processed + 1 }, true) := by
          rw [runCell, if_neg (by rw [hs]; exact Bool.false_ne_true),
            if_pos ⟨hl, hover⟩]
        rw [runRow]
        simp only [hcell, hfil, List.length_cons]
        rw [if_pos trivial]
        constructor
        · intro hcond
          exfalso
          omega
        · intro _
          refine ⟨?_, ?_, ?_, ?_⟩
          · show st.processed + 1 = limit + 1
            omega
          · show st.calls = limit
            exact hcl
          · show st.successes = cntT outcome limit
            rw [h2, hcl]
          · show st.failures = cntF outcome limit
            rw [h3, hcl]
      · have hcell : runCell limit outcome st row_label col f
            = ({ processed := st.processed + 1
                 successes := if outcome st.calls then st.successes + 1 else st.successes
                 failures := if outcome st.calls then st.failures else st.failures + 1
                 calls := st.calls + 1 }, false) := by
          rw [runCell, if_neg (by rw [hs]; exact Bool.false_ne_true),
            if_neg (by intro hcontra; exact hover hcontra.2)]
        have hinv₁ : DriverInv outcome
            ({ processed := st.processed + 1
               successes := if outcome st.calls then st.successes + 1 else st.successes
               failures := if outcome st.calls then st.failures else st.failures + 1
               calls := st.calls + 1 } : DriverCounts) := by
          refine ⟨by simp [h1], ?_, ?_⟩
          · cases ho : outcome st.calls <;> simp [cntT_succ, h2, ho]
          · cases ho : outcome st.calls <;> simp [cntF_succ, h3, ho]
        have hp1 : (({ processed := st.processed + 1
                       successes := if outcome st.calls then st.successes + 1 else st.successes
                       failures := if outcome st.calls then st.failures else st.failures + 1
                       calls := st.calls + 1 } : DriverCounts)).processed
            = st.processed + 1 := rfl
        have hle₁ : st.processed + 1 ≤ limit := by omega
        have hrest := ih _ hinv₁ hle₁
        rw [runRow]
        simp only [hcell, hfil, List.length_cons]
        rw [if_neg Bool.false_ne_true]
        constructor
        · intro hcond
          have hA := hrest.1 (by rw [hp1]; omega)
          refine ⟨hA.1, ?_⟩
          rw [hA.2, hp1]
          omega
        · intro hcond
          exact hrest.2 (by rw [hp1]; omega)

theorem runMatrix_limit_spec (limit : Nat) (outcome : Nat → Bool) (hl : limit ≠ 0) :
    ∀ (matrix : List (String × List (String × Option ℚ))) (st : DriverCounts),
      DriverInv outcome st → st.processed < limit →
      (runMatrix limit outcome st matrix).calls
          = (stopSpec limit st.processed (matrix.map eligCountRow)).1 ∧
      (runMatrix limit outcome st matrix).processed
          = (stopSpec limit st.processed (matrix.map eligCountRow)).2 ∧
      (runMatrix limit outcome st matrix).successes
          = cntT outcome (runMatrix limit outcome st matrix).calls ∧
      (runMatrix limit outcome st matrix).failures
          = cntF outcome (runMatrix limit outcome st matrix).calls := by
  intro matrix
  induction matrix with
  | nil =>
    intro st hinv hlt
    obtain ⟨h1, h2, h3⟩ := hinv
    rw [runMatrix]
    exact ⟨by simp only [stopSpec]; exact h1.symm, by simp only [stopSpec], h2, h3⟩
  | cons row rest ih =>
    intro st hinv hlt
    rcases row with ⟨row_label, cells⟩
    have hrow := runRow_limit_spec limit outcome row_label hl cells st hinv
      (le_of_lt hlt)
    have hmap : ((row_label, cells) :: rest).map eligCountRow
        = (cells.filter (eligCell row_label)).length :: rest.map eligCountRow := rfl
    rcases Nat.lt_trichotomy
        (st.processed + (cells.filter (eligCell row_label)).length) limit
      with hc | hc | hc
    · have hA := hrow.1 (le_of_lt hc)
      rw [runMatrix, if_neg (by intro hcontra; rw [hA.2] at hcontra; omega)]
      have hrec := ih (runRow limit outcome row_label st cells) hA.1
        (by rw [hA.2]; exact hc)
      rw [hmap]
      simp only [stopSpec]
      rw [if_pos hc]
      rw [hA.2] at hrec
      exact hrec
    · have hA := hrow.1 (le_of_eq hc)
      rw [runMatrix, if_pos ⟨hl, by rw [hA.2, hc]⟩]
      obtain ⟨⟨g1, g2, g3⟩, hp⟩ := hA
      rw [hmap]
      simp only [stopSpec]
      rw [if_neg (by omega), if_pos hc]
      refine ⟨by rw [← g1, hp, hc], by rw [hp, hc], g2, g3⟩
    · have hB := hrow.2 hc
      rw [runMatrix, if_pos ⟨hl, by rw [hB.1]; omega⟩]
      rw [hmap]
      simp only [stopSpec]
      rw [if_neg (by omega), if_neg (by omega)]
      refine ⟨hB.2.1, hB.1, ?_, ?_⟩
      · rw [hB.2.2.1, hB.2.1]
      · rw [hB.2.2.2, hB.2.1]

theorem stopSpec_crossed (limit : Nat) :
    ∀ (es : List Nat) (acc : Nat), acc < limit → limit < acc + es.sum →
      (stopSpec limit acc es).1 = limit ∧
      ((stopSpec limit acc es).2 = limit ∨ (stopSpec limit acc es).2 = limit + 1) := by
  intro es
  induction es with
  | nil =>
    intro acc hlt hgt
    exfalso
    simp at hgt
    omega
  | cons e rest ih =>
    intro acc hlt hgt
    simp only [stopSpec]
    rcases Nat.lt_trichotomy (acc + e) limit with hc | hc | hc
    · rw [if_pos hc]
      refine ih (acc + e) hc ?_
      rw [List.sum_cons] at hgt
      omega
    · rw [if_neg (by omega), if_pos hc]
      exact ⟨rfl, Or.inl rfl⟩
    · rw [if_neg (by omega), if_neg (by omega)]
      exact ⟨rfl, Or.inr rfl⟩

/-- C10 (amended): with `--limit_pairs` set to `N > 0` and more than `N`
eligible pairs in the matrix, `process_pair` runs exactly `N` times and
`successes + failures = N`; because `processed` is incremented before the
limit check, the summary reports `Total pairs processed = N + 1` — making
the processed figure disagree with `successes + failures` — exactly when
the `(N+1)`-th eligible pair lies in the same row as the `N`-th (the limit
is crossed strictly inside a row, per `stopSpec`); when the `N`-th eligible
pair is the last eligible one of its row, the outer row-boundary break
fires first and the summary reports `processed = N`. -/
theorem c10_limit_pairs_amended (limit : Nat) (outcome : Nat → Bool)
    (matrix : List (String × List (String × Option ℚ)))
    (h0 : 0 < limit) (hgt : limit < eligTotal matrix) :
    (run_main limit outcome matrix).calls = limit ∧
    (run_main limit outcome matrix).successes
        + (run_main limit outcome matrix).failures = limit ∧
    (run_main limit outcome matrix).processed
        = (stopSpec limit 0 (matrix.map eligCountRow)).2 ∧
    ((run_main limit outcome matrix).processed = limit ∨
      (run_main limit outcome matrix).processed = limit + 1) := by
  have hl : limit ≠ 0 := by omega
  have hm := runMatrix_limit_spec limit outcome hl matrix ⟨0, 0, 0, 0⟩
    ⟨rfl, rfl, rfl⟩ h0
  have hcross := stopSpec_crossed limit (matrix.map eligCountRow) 0 h0
    (by simpa [eligTotal] using hgt)
  obtain ⟨hm1, hm2, hm3, hm4⟩ := hm
  have hcalls : (run_main limit outcome matrix).calls = limit := by
    rw [run_main, hm1, hcross.1]
  refine ⟨hcalls, ?_, ?_, ?_⟩
  · have := cntT_add_cntF outcome (run_main limit outcome matrix).calls
    rw [run_main] at hcalls ⊢
    rw [hm3, hm4, cntT_add_cntF, hcalls]
  · rw [run_main, hm2]
  · rw [run_main, hm2]
    exact hcross.2

/-- Boundary matrix: two eligible pairs in two separate rows. -/
def c10BoundaryMatrix : List (String × List (String × Option ℚ)) :=
  [("A", [("B", some 1)]), ("C", [("D", some 1)])]

/-- Same-row matrix: two eligible pairs in one row. -/
def c10SameRowMatrix : List (String × List (String × Option ℚ)) :=
  [("A", [("B", some 1), ("C", some 1)])]

/-- C10 counterexample: with `limit_pairs = 1` and 2 eligible pairs split
across two rows, the run reports `processed = 1 = successes + failures`,
not 2: the claim's unconditional `processed = N + 1` is false, because the
outer loop's break (line 586) exits at the row boundary before the counter
overshoots. -/
theorem c10_limit_pairs_cex :
    eligTotal c10BoundaryMatrix = 2 ∧
    (run_main 1 (fun _ => true) c10BoundaryMatrix).processed = 1 ∧
    (run_main 1 (fun _ => true) c10BoundaryMatrix).successes
        + (run_main 1 (fun _ => true) c10BoundaryMatrix).failures = 1 ∧
    (run_main 1 (fun _ => true) c10BoundaryMatrix).calls = 1 := by
  decide

theorem c10_limit_pairs_amended_witness :
    0 < 1 ∧ 1 < eligTotal c10SameRowMatrix ∧
    ((run_main 1 (fun _ => true) c10SameRowMatrix).calls = 1 ∧
     (run_main 1 (fun _ => true) c10SameRowMatrix).successes
        + (run_main 1 (fun _ => true) c10SameRowMatrix).failures = 1 ∧
     (run_main 1 (fun _ => true) c10SameRowMatrix).processed
        = (stopSpec 1 0 (c10SameRowMatrix.map eligCountRow)).2 ∧
     ((run_main 1 (fun _ => true) c10SameRowMatrix).processed = 1 ∨
      (run_main 1 (fun _ => true) c10SameRowMatrix).processed = 1 + 1)) :=
  ⟨by decide, by decide,
    c10_limit_pairs_amended 1 (fun _ => true) c10SameRowMatrix (by decide) (by decide)⟩

end AreaConv
